import Mathlib

/-!
Shallow embedding of the GovTrack dashboard core: the in-memory record
store data model, the periodic stochastic simulation tick over projects
and budgets, the aggregate metrics (overall utilization, transparency
index), the expenditure query pipeline, and the irregularity-report
submission workflow.  JavaScript numbers are modelled as rationals; the
IEEE special values NaN and Infinity, which matter for the unguarded
divisions in the metrics aggregator, are modelled by the dedicated type
JNum.  Random draws of a tick are modelled as explicit per-entity draw
records constrained by a validity predicate giving the exact ranges the
source draws from.
-/

namespace GovTrack

/-- JS Math.round: round half toward positive infinity, returning an integer. -/
def jround (x : ℚ) : ℤ := ⌊x + 1/2⌋

/-- JS Math.round used again as a number: the rounded value as a rational. -/
def jroundQ (x : ℚ) : ℚ := (jround x : ℚ)

/-- The clamp utility of the source: min(max(v, lo), hi).  The source calls
it with its default bounds 0 and 100. -/
def clamp (v lo hi : ℚ) : ℚ := min (max v lo) hi

/-- The Budget record.  Timestamps are abstracted to natural numbers. -/
structure Budget where
  id : String
  department : String
  category : String
  allocated : ℚ
  spent : ℚ
  region : String
  lastUpdated : ℕ
  deriving DecidableEq

/-- The Project record.  The status union of the source is kept as the
literal strings of the source.  Timestamps are abstracted to naturals. -/
structure Project where
  id : String
  name : String
  department : String
  budget : ℚ
  spent : ℚ
  status : String
  progress : ℚ
  startDate : String
  endDate : String
  region : String
  description : String
  updatedAt : ℕ
  risk : ℚ
  deriving DecidableEq

/-- The Expenditure record.  The date is modelled directly as the numeric
timestamp that the source obtains with getTime for sorting. -/
structure Expenditure where
  id : String
  projectId : Option String
  department : String
  description : String
  amount : ℚ
  date : ℚ
  category : String
  deriving DecidableEq

/-- The IrregularityReport record.  subject and description are Options
because the source copies possibly-undefined draft fields into them at
runtime (the draft is a Partial record). -/
structure IrregularityReport where
  id : String
  type : String
  subject : Option String
  description : Option String
  department : Option String
  projectId : Option String
  createdAt : ℕ
  status : String
  severity : String
  reference : Option String
  deriving DecidableEq

/-- The random draws one project consumes in one tick: the update draw
(Math.random() < 0.2), the progress increment inc = Math.random() * 4,
the spend factor r = 0.8 + Math.random() * 0.4, the risk draw u with
u * 3 or u * 4 - 2 used depending on the status branch, and the tick
timestamp. -/
structure ProjDraws where
  update : Bool
  inc : ℚ
  r : ℚ
  u : ℚ
  now : ℕ

/-- The ranges the source actually draws from: inc in [0, 4), r in
[0.8, 1.2), u in [0, 1). -/
def ProjDraws.valid (d : ProjDraws) : Prop :=
  0 ≤ d.inc ∧ d.inc < 4 ∧ 4/5 ≤ d.r ∧ d.r < 6/5 ∧ 0 ≤ d.u ∧ d.u < 1

/-- extraSpend = Math.round(p.budget * (inc / 100) * (0.8 + Math.random() * 0.4)),
with the whole random factor modelled by d.r. -/
def extraSpend (d : ProjDraws) (p : Project) : ℚ :=
  jroundQ (p.budget * (d.inc / 100) * d.r)

/-- One simulation-tick update of one project, mirroring the source:
only a project selected by its update draw and with progress < 100 is
changed; progress is clamped to [0, 100]; spent is capped at budget;
status becomes Completed exactly when the pre-clamp incremented progress
reaches 100; risk grows capped at 90 in the Delayed / At Risk branch and
otherwise moves by u * 4 - 2 floored at 10 (with no upper cap). -/
def tickProject (d : ProjDraws) (p : Project) : Project :=
  if d.update = true ∧ p.progress < 100 then
    { p with
      progress := clamp (p.progress + d.inc) 0 100,
      spent := min p.budget (p.spent + extraSpend d p),
      status := if 100 ≤ p.progress + d.inc then "Completed" else p.status,
      updatedAt := d.now,
      risk :=
        if p.status = "Delayed" ∨ p.status = "At Risk" then
          min 90 (p.risk + d.u * 3)
        else
          max 10 (p.risk + (d.u * 4 - 2)) }
  else p

/-- The per-element map of a tick over the projects list, with one
independent draw record per position, carrying the position index. -/
def tickProjectsFrom (ds : ℕ → ProjDraws) : ℕ → List Project → List Project
  | _, [] => []
  | i, p :: ps => tickProject (ds i) p :: tickProjectsFrom ds (i + 1) ps

/-- One full simulation tick over the projects collection. -/
def tickProjects (ds : ℕ → ProjDraws) (ps : List Project) : List Project :=
  tickProjectsFrom ds 0 ps

/-- The random draws one budget consumes in one tick: the update draw
(Math.random() < 0.15), the delta draw u, and the tick timestamp. -/
structure BudgetDraws where
  update : Bool
  u : ℚ
  now : ℕ

/-- The source draws u from [0, 1). -/
def BudgetDraws.valid (d : BudgetDraws) : Prop := 0 ≤ d.u ∧ d.u < 1

/-- One simulation-tick update of one budget, mirroring the source:
delta = Math.round(b.allocated * 0.0005 * Math.random() * 50) and
spent becomes min(b.allocated * 1.15, b.spent + delta). -/
def tickBudget (d : BudgetDraws) (b : Budget) : Budget :=
  if d.update = true then
    { b with
      spent := min (b.allocated * (115/100))
        (b.spent + jroundQ (b.allocated * (5/10000) * d.u * 50)),
      lastUpdated := d.now }
  else b

/-- The per-element map of a tick over the budgets list. -/
def tickBudgetsFrom (ds : ℕ → BudgetDraws) : ℕ → List Budget → List Budget
  | _, [] => []
  | i, b :: bs => tickBudget (ds i) b :: tickBudgetsFrom ds (i + 1) bs

/-- One full simulation tick over the budgets collection. -/
def tickBudgets (ds : ℕ → BudgetDraws) (bs : List Budget) : List Budget :=
  tickBudgetsFrom ds 0 bs

/-- The seeded sample budgets of the source (timestamps abstracted to 0). -/
def seedBudgets : List Budget :=
  [ { id := "b1", department := "Health", category := "Public Services",
      allocated := 50000000, spent := 21500000, region := "National", lastUpdated := 0 },
    { id := "b2", department := "Education", category := "Public Services",
      allocated := 42000000, spent := 28900000, region := "National", lastUpdated := 0 },
    { id := "b3", department := "Transport", category := "Infrastructure",
      allocated := 65000000, spent := 41200000, region := "National", lastUpdated := 0 },
    { id := "b4", department := "Agriculture", category := "Economic",
      allocated := 18000000, spent := 9000000, region := "Rural", lastUpdated := 0 },
    { id := "b5", department := "Energy", category := "Infrastructure",
      allocated := 30000000, spent := 11000000, region := "National", lastUpdated := 0 },
    { id := "b6", department := "Tourism", category := "Economic",
      allocated := 8000000, spent := 3500000, region := "Coastal", lastUpdated := 0 },
    { id := "b7", department := "Defense", category := "Security",
      allocated := 90000000, spent := 61000000, region := "National", lastUpdated := 0 },
    { id := "b8", department := "Justice", category := "Security",
      allocated := 27000000, spent := 14000000, region := "National", lastUpdated := 0 } ]

/-- The seeded sample projects of the source (timestamps abstracted to 0). -/
def seedProjects : List Project :=
  [ { id := "p1", name := "Rural Clinic Expansion", department := "Health",
      budget := 12000000, spent := 4600000, status := "On Track", progress := 39,
      startDate := "2024-01-15", endDate := "2025-07-30", region := "Rural",
      description := "Building and upgrading rural health clinics to expand access.",
      updatedAt := 0, risk := 25 },
    { id := "p2", name := "Highway Modernization", department := "Transport",
      budget := 30000000, spent := 15800000, status := "Delayed", progress := 52,
      startDate := "2023-09-01", endDate := "2025-12-31", region := "National",
      description := "Modernizing key national highway corridors for safety and capacity.",
      updatedAt := 0, risk := 55 },
    { id := "p3", name := "Digital Classrooms Initiative", department := "Education",
      budget := 15000000, spent := 7200000, status := "On Track", progress := 47,
      startDate := "2024-02-01", endDate := "2025-06-15", region := "National",
      description := "Deploying digital tools and connectivity in public schools.",
      updatedAt := 0, risk := 30 },
    { id := "p4", name := "Green Energy Pilot", department := "Energy",
      budget := 10000000, spent := 4800000, status := "On Track", progress := 49,
      startDate := "2024-03-01", endDate := "2025-03-01", region := "National",
      description := "Pilot renewable microgrid systems for remote areas.",
      updatedAt := 0, risk := 35 },
    { id := "p5", name := "Agri Supply Chain Upgrade", department := "Agriculture",
      budget := 8000000, spent := 2700000, status := "At Risk", progress := 28,
      startDate := "2024-04-01", endDate := "2025-10-01", region := "Rural",
      description := "Improving cold storage and logistics for produce.",
      updatedAt := 0, risk := 68 },
    { id := "p6", name := "Judicial Case System", department := "Justice",
      budget := 6000000, spent := 2400000, status := "On Track", progress := 36,
      startDate := "2024-01-10", endDate := "2025-01-10", region := "National",
      description := "Implementing digital case management for courts.",
      updatedAt := 0, risk := 40 },
    { id := "p7", name := "Border Security Upgrade", department := "Defense",
      budget := 22000000, spent := 9600000, status := "Delayed", progress := 44,
      startDate := "2023-12-01", endDate := "2025-08-01", region := "National",
      description := "Deploying modern surveillance and control infrastructure.",
      updatedAt := 0, risk := 58 },
    { id := "p8", name := "Eco Tourism Campaign", department := "Tourism",
      budget := 5000000, spent := 1700000, status := "On Track", progress := 34,
      startDate := "2024-05-01", endDate := "2025-05-01", region := "Coastal",
      description := "Promoting sustainable tourism development.",
      updatedAt := 0, risk := 32 },
    { id := "p9", name := "School Nutrition Upgrade", department := "Education",
      budget := 9000000, spent := 3000000, status := "On Track", progress := 33,
      startDate := "2024-03-15", endDate := "2025-09-15", region := "National",
      description := "Enhancing nutritional standards for school meals.",
      updatedAt := 0, risk := 29 } ]

/-- Project collection states reachable from the seed by simulation
ticks whose draws lie in the ranges the source draws from. -/
inductive ReachP : List Project → Prop where
  | seed : ReachP seedProjects
  | step (ds : ℕ → ProjDraws) (hds : ∀ i, (ds i).valid) {ps : List Project} :
      ReachP ps → ReachP (tickProjects ds ps)

/-- Budget collection states reachable from the seed by simulation
ticks whose draws lie in the ranges the source draws from. -/
inductive ReachB : List Budget → Prop where
  | seed : ReachB seedBudgets
  | step (ds : ℕ → BudgetDraws) (hds : ∀ i, (ds i).valid) {bs : List Budget} :
      ReachB bs → ReachB (tickBudgets ds bs)

/-- A JavaScript number as far as the metrics aggregator is concerned:
a finite rational, positive or negative infinity, or NaN. -/
inductive JNum where
  | fin (q : ℚ)
  | inf
  | ninf
  | nan
  deriving DecidableEq

namespace JNum

/-- JS addition on numbers with special values. -/
def add : JNum → JNum → JNum
  | nan, _ => nan
  | _, nan => nan
  | inf, ninf => nan
  | ninf, inf => nan
  | inf, _ => inf
  | _, inf => inf
  | ninf, _ => ninf
  | _, ninf => ninf
  | fin a, fin b => fin (a + b)

/-- JS subtraction on numbers with special values. -/
def sub : JNum → JNum → JNum
  | nan, _ => nan
  | _, nan => nan
  | inf, inf => nan
  | ninf, ninf => nan
  | inf, _ => inf
  | _, inf => ninf
  | ninf, _ => ninf
  | _, ninf => inf
  | fin a, fin b => fin (a - b)

/-- JS multiplication on numbers with special values. -/
def mul : JNum → JNum → JNum
  | nan, _ => nan
  | _, nan => nan
  | inf, inf => inf
  | inf, ninf => ninf
  | ninf, inf => ninf
  | ninf, ninf => inf
  | inf, fin b => if b = 0 then nan else if 0 < b then inf else ninf
  | fin a, inf => if a = 0 then nan else if 0 < a then inf else ninf
  | ninf, fin b => if b = 0 then nan else if 0 < b then ninf else inf
  | fin a, ninf => if a = 0 then nan else if 0 < a then ninf else inf
  | fin a, fin b => fin (a * b)

/-- JS division on numbers with special values: in particular 0/0 is NaN
and a nonzero finite number divided by 0 is a signed infinity. -/
def div : JNum → JNum → JNum
  | nan, _ => nan
  | _, nan => nan
  | inf, inf => nan
  | inf, ninf => nan
  | ninf, inf => nan
  | ninf, ninf => nan
  | inf, fin b => if 0 ≤ b then inf else ninf
  | ninf, fin b => if 0 ≤ b then ninf else inf
  | fin _, inf => fin 0
  | fin _, ninf => fin 0
  | fin a, fin b =>
      if b = 0 then (if a = 0 then nan else if 0 < a then inf else ninf)
      else fin (a / b)

/-- JS Math.abs on numbers with special values. -/
def absJ : JNum → JNum
  | nan => nan
  | inf => inf
  | ninf => inf
  | fin a => fin |a|

/-- JS Math.max on two numbers: NaN if either argument is NaN. -/
def maxJ : JNum → JNum → JNum
  | nan, _ => nan
  | _, nan => nan
  | inf, _ => inf
  | _, inf => inf
  | ninf, x => x
  | x, ninf => x
  | fin a, fin b => fin (max a b)

/-- JS Math.round on numbers with special values. -/
def roundJ : JNum → JNum
  | nan => nan
  | inf => inf
  | ninf => ninf
  | fin a => fin ((⌊a + 1/2⌋ : ℤ) : ℚ)

end JNum

/-- The per-budget utilizations of the aggregator:
budgets.map(b => b.spent / b.allocated * 100), with the division as JS
performs it (no guard against allocated = 0). -/
def utilizationsJ (bs : List Budget) : List JNum :=
  bs.map fun b => ((JNum.fin b.spent).div (JNum.fin b.allocated)).mul (JNum.fin 100)

/-- avgDeviation = utilizations.reduce((s, u) => s + Math.abs(u - 60), 0)
divided by utilizations.length, as JS performs it (0 / 0 = NaN for an
empty budgets list). -/
def avgDeviationJ (bs : List Budget) : JNum :=
  ((utilizationsJ bs).foldl (fun s u => s.add ((u.sub (JNum.fin 60)).absJ))
    (JNum.fin 0)).div (JNum.fin ((utilizationsJ bs).length : ℚ))

/-- norm = Math.max(0, 100 - avgDeviation) / 100. -/
def normJ (bs : List Budget) : JNum :=
  ((JNum.fin 0).maxJ ((JNum.fin 100).sub (avgDeviationJ bs))).div (JNum.fin 100)

/-- resolutionRatio = reports.length ? resolved / reports.length : 0.5.
This division is guarded by the length test, so it is always finite. -/
def resolutionRatioQ (rs : List IrregularityReport) : ℚ :=
  if rs.length ≠ 0 then
    (((rs.filter fun r => r.status == "Resolved").length : ℚ) / (rs.length : ℚ))
  else 1/2

/-- transparencyIndex = Math.round((0.6 * norm + 0.4 * resolutionRatio) * 100),
with every operation on the budgets side performed on JS numbers. -/
def transparencyIndexJ (bs : List Budget) (rs : List IrregularityReport) : JNum :=
  ((((JNum.fin (6/10)).mul (normJ bs)).add
      ((JNum.fin (4/10)).mul (JNum.fin (resolutionRatioQ rs)))).mul
    (JNum.fin 100)).roundJ

/-- overallUtilization = totalSpent / totalAllocated * 100 with the totals
accumulated by reduce, and the division as JS performs it (no guard). -/
def overallUtilizationJ (bs : List Budget) : JNum :=
  ((JNum.fin (bs.foldl (fun s b => s + b.spent) 0)).div
    (JNum.fin (bs.foldl (fun s b => s + b.allocated) 0))).mul (JNum.fin 100)

/-- The per-budget utilization formula on the generic (finite) path,
spent / allocated * 100, as a rational. -/
def utilQ (b : Budget) : ℚ := b.spent / b.allocated * 100

/-- Whether the first character list starts with the second one. -/
def charsStartsWith : List Char → List Char → Bool
  | _, [] => true
  | [], _ :: _ => false
  | a :: as, b :: bs => a == b && charsStartsWith as bs

/-- Whether the first character list contains the second one contiguously. -/
def charsContains (hay pat : List Char) : Bool :=
  charsStartsWith hay pat ||
    match hay with
    | [] => false
    | _ :: rest => charsContains rest pat

/-- JS String.prototype.includes as used by the search step. -/
def jsIncludes (hay pat : String) : Bool := charsContains hay.data pat.data

/-- Insertion step of the stable date-descending sort that the source
always applies last to expenditures. -/
def insertByDateDesc (e : Expenditure) : List Expenditure → List Expenditure
  | [] => [e]
  | x :: xs => if x.date < e.date then e :: x :: xs else x :: insertByDateDesc e xs

/-- The final default ordering of expenditures: by date, descending. -/
def sortByDateDesc (l : List Expenditure) : List Expenditure :=
  l.foldr insertByDateDesc []

/-- The expenditures query pipeline of the source: search over description
and department, then department, region and category filters (each with
the sentinel value All meaning no filtering), then the date-descending
sort.  The region filter keeps an expenditure whose projectId is falsy
(absent or the empty string) or whose projectId is in the id set of the
projects with the selected region. -/
def filteredExpenditures (es : List Expenditure) (ps : List Project)
    (search filterDept filterRegion filterCategory : String) : List Expenditure :=
  let d1 := if search ≠ "" then
      es.filter fun e =>
        jsIncludes e.description.toLower search.toLower ||
        jsIncludes e.department.toLower search.toLower
    else es
  let d2 := if filterDept ≠ "All" then d1.filter (fun e => e.department == filterDept) else d1
  let d3 := if filterRegion ≠ "All" then
      d2.filter fun e =>
        match e.projectId with
        | none => true
        | some pid =>
            pid == "" ||
            ((ps.filter fun p => p.region == filterRegion).map fun p => p.id).contains pid
    else d2
  let d4 := if filterCategory ≠ "All" then d3.filter (fun e => e.category == filterCategory) else d3
  sortByDateDesc d4

/-- The report draft, a Partial record in the source: every field may be
absent. -/
structure ReportDraft where
  type : Option String
  subject : Option String
  description : Option String
  department : Option String
  projectId : Option String
  severity : Option String
  reference : Option String
  deriving DecidableEq

/-- The draft the source resets to: severity Medium and type Spending
Concern, everything else absent. -/
def defaultReportDraft : ReportDraft :=
  { type := some "Spending Concern", subject := none, description := none,
    department := none, projectId := none, severity := some "Medium",
    reference := none }

/-- The state of the report workflow: the draft, the stored reports, and
the two modal flags.  showReportConfirmation = true is the
PendingConfirmation state of the specification. -/
structure ReportState where
  reportDraft : ReportDraft
  reports : List IrregularityReport
  showReportModal : Bool
  showReportConfirmation : Bool
  deriving DecidableEq

/-- JS truthiness of an optional string: undefined and the empty string
are falsy. -/
def truthyOpt : Option String → Bool
  | none => false
  | some s => !(s == "")

/-- The JS or-with-default idiom x || d on an optional string field. -/
def jsOrStr : Option String → String → String
  | none, dflt => dflt
  | some s, dflt => if s = "" then dflt else s

/-- requestSubmit of the workflow: blocked (no transition) unless subject
and description are both truthy, otherwise the confirmation opens. -/
def submitReport (s : ReportState) : ReportState :=
  if truthyOpt s.reportDraft.subject && truthyOpt s.reportDraft.description then
    { s with showReportConfirmation := true }
  else s

/-- The report the source constructs on confirmation: an id derived from
the current time, draft fields copied (type and severity through the
or-with-default idiom), status Submitted, createdAt the current time. -/
def mkReportFromDraft (draft : ReportDraft) (now : ℕ) : IrregularityReport :=
  { id := "r" ++ toString now,
    type := jsOrStr draft.type "Spending Concern",
    subject := draft.subject,
    description := draft.description,
    department := draft.department,
    projectId := draft.projectId,
    severity := jsOrStr draft.severity "Medium",
    status := "Submitted",
    reference := draft.reference,
    createdAt := now }

/-- confirm of the workflow: prepend the newly constructed report to the
reports list, close both modals, and reset the draft to the defaults. -/
def confirmSubmitReport (s : ReportState) (now : ℕ) : ReportState :=
  { s with
    reports := mkReportFromDraft s.reportDraft now :: s.reports,
    showReportModal := false,
    showReportConfirmation := false,
    reportDraft := defaultReportDraft }

/-- Concrete per-index draws for a trace of ticks: only the project at
index 5 (the Judicial Case System, status On Track, risk 40) is updated
each tick, with increment 0, spend factor 1, and risk draw u = 199/200,
so each tick adds u * 4 - 2 = 1.98 to its risk.  All draws are in the
ranges the source draws from. -/
def dsC1 : ℕ → ProjDraws := fun i =>
  if i = 5 then { update := true, inc := 0, r := 1, u := 199/200, now := 1 }
  else { update := false, inc := 0, r := 1, u := 0, now := 1 }

/-- The project states after n ticks with the draws dsC1, starting from
the seed. -/
def c1Trace : ℕ → List Project
  | 0 => seedProjects
  | n + 1 => tickProjects dsC1 (c1Trace n)

/-- A budget whose allocated amount is zero: the malformed record of the
error-handling claim about the aggregator. -/
def badBudget : Budget :=
  { id := "bx", department := "Works", category := "Economic",
    allocated := 0, spent := 0, region := "National", lastUpdated := 0 }

/-- A concrete draw record inside all the ranges the source draws from. -/
def dV : ProjDraws := { update := true, inc := 2, r := 1, u := 1/2, now := 4 }

/-- A concrete in-budget project used to instantiate tick theorems. -/
def pW3 : Project :=
  { id := "pa", name := "Sample Works", department := "Works",
    budget := 100, spent := 50, status := "On Track", progress := 10,
    startDate := "2024-01-01", endDate := "2025-01-01", region := "National",
    description := "Sample.", updatedAt := 0, risk := 20 }

/-- A project whose seeded spent already exceeds its budget. -/
def pOver : Project :=
  { id := "pb", name := "Overspent Works", department := "Works",
    budget := 100, spent := 150, status := "On Track", progress := 10,
    startDate := "2024-01-01", endDate := "2025-01-01", region := "National",
    description := "Sample.", updatedAt := 0, risk := 20 }

/-- Draws with increment 0 for the overspend counterexample. -/
def dOver : ProjDraws := { update := true, inc := 0, r := 1, u := 1/2, now := 4 }

/-- The scenario draws of the specification: a tick with drawn inc = 5. -/
def dC5 : ProjDraws := { update := true, inc := 5, r := 1, u := 1/2, now := 9 }

/-- The scenario project of the specification: progress 96, budget 1000000. -/
def pC5 : Project :=
  { id := "pc", name := "Scenario Works", department := "Works",
    budget := 1000000, spent := 400000, status := "On Track", progress := 96,
    startDate := "2024-01-01", endDate := "2025-01-01", region := "National",
    description := "Sample.", updatedAt := 0, risk := 20 }

/-- A project that has already reached progress 100. -/
def pDone : Project :=
  { id := "pd", name := "Finished Works", department := "Works",
    budget := 100, spent := 90, status := "Completed", progress := 100,
    startDate := "2024-01-01", endDate := "2025-01-01", region := "National",
    description := "Sample.", updatedAt := 0, risk := 20 }

/-- An expenditure whose projectId is the empty string: present as a
value, but falsy in JS, and matching no project. -/
def eEmpty : Expenditure :=
  { id := "e0", projectId := some "", department := "Works",
    description := "Procurement expense", amount := 100, date := 10,
    category := "Procurement" }

/-- An expenditure referencing the sample project prRural. -/
def eRural : Expenditure :=
  { id := "e1", projectId := some "px", department := "Works",
    description := "Labor expense", amount := 200, date := 20,
    category := "Labor" }

/-- A sample project in the Rural region. -/
def prRural : Project :=
  { id := "px", name := "Rural Works", department := "Works",
    budget := 1000, spent := 10, status := "On Track", progress := 5,
    startDate := "2024-01-01", endDate := "2025-01-01", region := "Rural",
    description := "Sample.", updatedAt := 0, risk := 15 }

/-- Concrete budget draws, identical at every index and in range. -/
def dsBW : ℕ → BudgetDraws := fun _ => { update := true, u := 1/2, now := 3 }

/-- The Judicial Case System project after k ticks of the dsC1 draws:
only its risk (by 1.98 per tick) and its updatedAt have changed. -/
def judicialAfter (k : ℕ) : Project :=
  { id := "p6", name := "Judicial Case System", department := "Justice",
    budget := 6000000, spent := 2400000, status := "On Track", progress := 36,
    startDate := "2024-01-10", endDate := "2025-01-10", region := "National",
    description := "Implementing digital case management for courts.",
    updatedAt := 1, risk := 40 + (k : ℚ) * (99/50) }

/-- The full project collection after k ticks of the dsC1 draws (for
k at least 1): the seed with position 5 replaced. -/
def c1State (k : ℕ) : List Project := seedProjects.set 5 (judicialAfter k)

/-! Helper lemmas. -/

lemma dsC1_valid : ∀ i, (dsC1 i).valid := by
  intro i
  unfold dsC1 ProjDraws.valid
  split <;> norm_num

lemma tick_seed_c1 : tickProjects dsC1 seedProjects = c1State 1 := by
  norm_num [c1State, seedProjects, judicialAfter, tickProjects, tickProjectsFrom,
    tickProject, dsC1, clamp, extraSpend, jroundQ, jround, List.set]
  exact ⟨by decide, by decide⟩

lemma tick_c1State (k : ℕ) : tickProjects dsC1 (c1State k) = c1State (k + 1) := by
  have hk : (0:ℚ) ≤ (k:ℚ) * (99/50) := by positivity
  norm_num [c1State, seedProjects, judicialAfter, tickProjects, tickProjectsFrom,
    tickProject, dsC1, clamp, extraSpend, jroundQ, jround, List.set]
  rw [if_neg (by decide), max_eq_right (by linarith)]
  ring

lemma reach_c1State : ∀ n : ℕ, ReachP (c1State (n + 1)) := by
  intro n
  induction n with
  | zero => exact tick_seed_c1 ▸ ReachP.step dsC1 dsC1_valid ReachP.seed
  | succ m ih => exact tick_c1State (m + 1) ▸ ReachP.step dsC1 dsC1_valid ih

lemma judicial_mem_c1State (n : ℕ) : judicialAfter n ∈ c1State n := by
  simp [c1State, seedProjects, List.set]

lemma mem_tickProjectsFrom {ds : ℕ → ProjDraws} :
    ∀ {ps : List Project} {i : ℕ} {q : Project}, q ∈ tickProjectsFrom ds i ps →
      ∃ j p, p ∈ ps ∧ q = tickProject (ds j) p := by
  intro ps
  induction ps with
  | nil => intro i q h; simp [tickProjectsFrom] at h
  | cons p ps ih =>
      intro i q h
      rw [tickProjectsFrom] at h
      rcases List.mem_cons.mp h with h1 | h1
      · exact ⟨i, p, List.mem_cons_self _ _, h1⟩
      · obtain ⟨j, p0, hp0, rfl⟩ := ih h1
        exact ⟨j, p0, List.mem_cons_of_mem _ hp0, rfl⟩

lemma mem_tickProjects {ds : ℕ → ProjDraws} {ps : List Project} {q : Project}
    (h : q ∈ tickProjects ds ps) : ∃ j p, p ∈ ps ∧ q = tickProject (ds j) p :=
  mem_tickProjectsFrom h

lemma mem_tickBudgetsFrom {ds : ℕ → BudgetDraws} :
    ∀ {bs : List Budget} {i : ℕ} {c : Budget}, c ∈ tickBudgetsFrom ds i bs →
      ∃ j b, b ∈ bs ∧ c = tickBudget (ds j) b := by
  intro bs
  induction bs with
  | nil => intro i c h; simp [tickBudgetsFrom] at h
  | cons b bs ih =>
      intro i c h
      rw [tickBudgetsFrom] at h
      rcases List.mem_cons.mp h with h1 | h1
      · exact ⟨i, b, List.mem_cons_self _ _, h1⟩
      · obtain ⟨j, b0, hb0, rfl⟩ := ih h1
        exact ⟨j, b0, List.mem_cons_of_mem _ hb0, rfl⟩

lemma mem_tickBudgets {ds : ℕ → BudgetDraws} {bs : List Budget} {c : Budget}
    (h : c ∈ tickBudgets ds bs) : ∃ j b, b ∈ bs ∧ c = tickBudget (ds j) b :=
  mem_tickBudgetsFrom h

lemma seed_risk_lb : ∀ p ∈ seedProjects, 10 ≤ p.risk := by
  intro p hp
  simp [seedProjects] at hp
  rcases hp with rfl | rfl | rfl | rfl | rfl | rfl | rfl | rfl | rfl <;> norm_num

lemma reachP_risk_lb {ps : List Project} (h : ReachP ps) : ∀ p ∈ ps, 10 ≤ p.risk := by
  induction h with
  | seed => exact seed_risk_lb
  | step ds hds h ih =>
      intro q hq
      obtain ⟨j, p, hp, rfl⟩ := mem_tickProjects hq
      have h10 := ih p hp
      have hu := (hds j).2.2.2.2.1
      unfold tickProject
      split
      · dsimp only
        split
        · exact le_min (by norm_num) (by nlinarith)
        · exact le_max_left 10 _
      · exact h10

lemma seed_completed : ∀ p ∈ seedProjects, p.status = "Completed" → 100 ≤ p.progress := by
  intro p hp
  simp [seedProjects] at hp
  rcases hp with rfl | rfl | rfl | rfl | rfl | rfl | rfl | rfl | rfl <;> intro h <;> simp at h

lemma reachP_completed {ps : List Project} (h : ReachP ps) :
    ∀ p ∈ ps, p.status = "Completed" → 100 ≤ p.progress := by
  induction h with
  | seed => exact seed_completed
  | step ds hds h ih =>
      intro q hq
      obtain ⟨j, p, hp, rfl⟩ := mem_tickProjects hq
      unfold tickProject
      split
      · rename_i hcond
        dsimp only
        intro hst
        by_cases hc : 100 ≤ p.progress + (ds j).inc
        · rw [clamp, max_eq_left (le_trans (by norm_num) hc), min_eq_right hc]
        · rw [if_neg hc] at hst
          exact absurd (ih p hp hst) (not_le.mpr hcond.2)
      · exact ih p hp

lemma seed_budget_inv : ∀ b ∈ seedBudgets, 0 ≤ b.allocated ∧ b.spent ≤ b.allocated * (115/100) := by
  intro b hb
  simp [seedBudgets] at hb
  rcases hb with rfl | rfl | rfl | rfl | rfl | rfl | rfl | rfl <;> norm_num

lemma reachB_inv {bs : List Budget} (h : ReachB bs) :
    ∀ b ∈ bs, 0 ≤ b.allocated ∧ b.spent ≤ b.allocated * (115/100) := by
  induction h with
  | seed => exact seed_budget_inv
  | step ds hds h ih =>
      intro c hc
      obtain ⟨j, b, hb, rfl⟩ := mem_tickBudgets hc
      obtain ⟨ha, hs⟩ := ih b hb
      unfold tickBudget
      split
      · exact ⟨ha, min_le_left _ _⟩
      · exact ⟨ha, hs⟩

lemma jroundQ_nonneg {x : ℚ} (hx : 0 ≤ x) : 0 ≤ jroundQ x := by
  unfold jroundQ jround
  have h : (0:ℤ) ≤ ⌊x + 1/2⌋ := Int.floor_nonneg.mpr (by linarith)
  exact_mod_cast h

lemma tickBudgetsFrom_spent_mono {ds : ℕ → BudgetDraws} (hds : ∀ i, (ds i).valid) :
    ∀ (bs : List Budget) (i : ℕ),
      (∀ b ∈ bs, 0 ≤ b.allocated ∧ b.spent ≤ b.allocated * (115/100)) →
      List.Forall₂ (fun b c => b.spent ≤ c.spent) bs (tickBudgetsFrom ds i bs) := by
  intro bs
  induction bs with
  | nil => intro i _; exact List.Forall₂.nil
  | cons b bs ih =>
      intro i hinv
      rw [tickBudgetsFrom]
      refine List.Forall₂.cons ?_ (ih (i + 1) (fun x hx => hinv x (List.mem_cons_of_mem _ hx)))
      obtain ⟨ha, hs⟩ := hinv b (List.mem_cons_self _ _)
      unfold tickBudget
      split
      · dsimp only
        refine le_min hs (le_add_of_nonneg_right (jroundQ_nonneg ?_))
        exact mul_nonneg (mul_nonneg (mul_nonneg ha (by norm_num)) (hds i).1) (by norm_num)
      · exact le_refl _

lemma tickProjectsFrom_length (ds : ℕ → ProjDraws) :
    ∀ (ps : List Project) (i : ℕ), (tickProjectsFrom ds i ps).length = ps.length := by
  intro ps
  induction ps with
  | nil => intro i; rfl
  | cons p ps ih => intro i; simp [tickProjectsFrom, ih]

lemma tickBudgetsFrom_length (ds : ℕ → BudgetDraws) :
    ∀ (bs : List Budget) (i : ℕ), (tickBudgetsFrom ds i bs).length = bs.length := by
  intro bs
  induction bs with
  | nil => intro i; rfl
  | cons b bs ih => intro i; simp [tickBudgetsFrom, ih]

lemma tickProjectsFrom_frame (ds : ℕ → ProjDraws) :
    ∀ (ps : List Project) (i : ℕ),
      List.Forall₂ (fun p q : Project =>
        q.id = p.id ∧ q.name = p.name ∧ q.department = p.department ∧
        q.budget = p.budget ∧ q.startDate = p.startDate ∧ q.endDate = p.endDate ∧
        q.region = p.region ∧ q.description = p.description) ps (tickProjectsFrom ds i ps) := by
  intro ps
  induction ps with
  | nil => intro i; exact List.Forall₂.nil
  | cons p ps ih =>
      intro i
      rw [tickProjectsFrom]
      exact List.Forall₂.cons (by unfold tickProject; split <;> simp) (ih (i + 1))

lemma tickBudgetsFrom_frame (ds : ℕ → BudgetDraws) :
    ∀ (bs : List Budget) (i : ℕ),
      List.Forall₂ (fun b c : Budget =>
        c.id = b.id ∧ c.department = b.department ∧ c.category = b.category ∧
        c.allocated = b.allocated ∧ c.region = b.region) bs (tickBudgetsFrom ds i bs) := by
  intro bs
  induction bs with
  | nil => intro i; exact List.Forall₂.nil
  | cons b bs ih =>
      intro i
      rw [tickBudgetsFrom]
      exact List.Forall₂.cons (by unfold tickBudget; split <;> simp) (ih (i + 1))

lemma nan_add (y : JNum) : JNum.add .nan y = .nan := by cases y <;> rfl

lemma add_nan (x : JNum) : JNum.add x .nan = .nan := by cases x <;> rfl

lemma nan_mul (y : JNum) : JNum.mul .nan y = .nan := by cases y <;> rfl

lemma mul_nan (x : JNum) : JNum.mul x .nan = .nan := by cases x <;> rfl

lemma nan_sub (y : JNum) : JNum.sub .nan y = .nan := by cases y <;> rfl

lemma sub_nan (x : JNum) : JNum.sub x .nan = .nan := by cases x <;> rfl

lemma nan_div (y : JNum) : JNum.div .nan y = .nan := by cases y <;> rfl

lemma div_nan (x : JNum) : JNum.div x .nan = .nan := by cases x <;> rfl

lemma maxJ_nan (x : JNum) : JNum.maxJ x .nan = .nan := by cases x <;> rfl

lemma nan_maxJ (y : JNum) : JNum.maxJ .nan y = .nan := by cases y <;> rfl

lemma foldl_absdev_fin : ∀ (l : List ℚ) (c : ℚ),
    List.foldl (fun s u => s.add ((u.sub (JNum.fin 60)).absJ)) (JNum.fin c) (l.map JNum.fin)
      = JNum.fin (List.foldl (fun s u => s + |u - 60|) c l) := by
  intro l
  induction l with
  | nil => intro c; rfl
  | cons x xs ih => intro c; exact ih (c + |x - 60|)

lemma foldl_absdev_nonneg : ∀ (l : List ℚ) (c : ℚ), 0 ≤ c →
    0 ≤ List.foldl (fun s u => s + |u - 60|) c l := by
  intro l
  induction l with
  | nil => intro c hc; exact hc
  | cons x xs ih => intro c hc; exact ih _ (add_nonneg hc (abs_nonneg _))

lemma utilizationsJ_fin {bs : List Budget} (h : ∀ b ∈ bs, 0 < b.allocated) :
    utilizationsJ bs = (bs.map utilQ).map JNum.fin := by
  rw [utilizationsJ, List.map_map]
  refine List.map_congr_left ?_
  intro b hb
  have hz : b.allocated ≠ 0 := (h b hb).ne'
  simp [JNum.div, JNum.mul, hz, utilQ, Function.comp]

lemma resolutionRatioQ_bounds (rs : List IrregularityReport) :
    0 ≤ resolutionRatioQ rs ∧ resolutionRatioQ rs ≤ 1 := by
  unfold resolutionRatioQ
  split
  · rename_i hlen
    constructor
    · positivity
    · rw [div_le_one (by positivity)]
      exact_mod_cast List.length_filter_le _ rs
  · norm_num

lemma mem_insertByDateDesc {a e : Expenditure} :
    ∀ {l : List Expenditure}, a ∈ insertByDateDesc e l ↔ a = e ∨ a ∈ l := by
  intro l
  induction l with
  | nil => simp [insertByDateDesc]
  | cons x xs ih =>
      rw [insertByDateDesc]
      split
      · simp [List.mem_cons]
      · simp only [List.mem_cons, ih]
        tauto

lemma mem_sortByDateDesc {a : Expenditure} :
    ∀ {l : List Expenditure}, a ∈ sortByDateDesc l ↔ a ∈ l := by
  intro l
  induction l with
  | nil => simp [sortByDateDesc]
  | cons x xs ih =>
      have hstep : sortByDateDesc (x :: xs) = insertByDateDesc x (sortByDateDesc xs) := rfl
      rw [hstep, mem_insertByDateDesc, ih, List.mem_cons]

/-! The claims. -/

/-- C1 (amended): starting from the seed, risk never falls below 10 (so the
claimed lower bound 0 holds), and a tick updating a project whose status is
Delayed or At Risk never pushes risk above max(previous risk, 90); but the
claimed 90 ceiling fails in general, because the other status branch only
floors risk at 10 and can raise it by up to 2 per updating tick, with no
upper cap (see the counterexample). -/
theorem C1_risk_bounds :
    (∀ ps, ReachP ps → ∀ p ∈ ps, 10 ≤ p.risk) ∧
    (∀ (d : ProjDraws) (p : Project),
      p.status = "Delayed" ∨ p.status = "At Risk" →
      (tickProject d p).risk ≤ max p.risk 90) ∧
    (∀ (d : ProjDraws) (p : Project), d.valid →
      (tickProject d p).risk ≤ max (p.risk + 2) 90) := by
  refine ⟨fun ps h => reachP_risk_lb h, ?_, ?_⟩
  · intro d p hst
    unfold tickProject
    split
    · dsimp only
      exact le_trans (min_le_left _ _) (le_max_right _ _)
    · exact le_max_left _ _
  · intro d p hv
    unfold tickProject
    split
    · dsimp only
      split
      · exact le_trans (min_le_left _ _) (le_max_right _ _)
      · refine max_le (le_trans (by norm_num) (le_max_right _ _)) ?_
        have hu := hv.2.2.2.2.2
        exact le_trans (by linarith) (le_max_left _ _)
    · exact le_trans (by linarith) (le_max_left _ _)

/-- C1 counterexample: a state reachable from the seed by 26 ticks, each
updating only the On Track project p6 with increment 0 and risk draw
u = 199/200, contains a project with risk 91.48 > 90, refuting the claimed
post-tick ceiling risk ≤ 90. -/
theorem C1_counterexample : ∃ ps, ReachP ps ∧ ∃ p ∈ ps, 90 < p.risk := by
  refine ⟨c1State 26, reach_c1State 25, judicialAfter 26, judicial_mem_c1State 26, ?_⟩
  norm_num [judicialAfter]

/-- C1 witness: the per-tick growth bound evaluated at a concrete valid
draw and a concrete project. -/
theorem C1_witness : (tickProject dV pW3).risk ≤ max (pW3.risk + 2) 90 :=
  C1_risk_bounds.2.2 dV pW3 (by norm_num [dV, ProjDraws.valid])

/-- C2 (amended): the aggregator does not guard the division by allocated;
with a budget list containing a single budget with allocated = 0 (and
spent = 0) the per-budget utilization is NaN and NaN propagates into
transparencyIndex (for every reports list) and into overallUtilization,
instead of any not-computable sentinel.  Only the report resolution ratio
is guarded (its division is behind the reports-length test). -/
theorem C2_unguarded : ∀ rs : List IrregularityReport,
    transparencyIndexJ [badBudget] rs = JNum.nan ∧
    overallUtilizationJ [badBudget] = JNum.nan := by
  intro rs
  constructor
  · have hnorm : normJ [badBudget] = JNum.nan := by
      norm_num [normJ, avgDeviationJ, utilizationsJ, badBudget, JNum.div, JNum.mul,
        JNum.sub, JNum.absJ, JNum.add, JNum.maxJ]
    rw [transparencyIndexJ, hnorm, mul_nan, nan_add, nan_mul]
    rfl
  · norm_num [overallUtilizationJ, badBudget, JNum.div, JNum.mul]

/-- C2 counterexample: at the concrete store state with the single budget
with allocated = 0 and no reports, the computed transparency index and the
overall utilization are both NaN, so an invalid number is propagated into
the computed metrics, refuting the claimed guard. -/
theorem C2_counterexample :
    transparencyIndexJ [badBudget] [] = JNum.nan ∧
    overallUtilizationJ [badBudget] = JNum.nan := by
  constructor
  · have hnorm : normJ [badBudget] = JNum.nan := by
      norm_num [normJ, avgDeviationJ, utilizationsJ, badBudget, JNum.div, JNum.mul,
        JNum.sub, JNum.absJ, JNum.add, JNum.maxJ]
    rw [transparencyIndexJ, hnorm, mul_nan, nan_add, nan_mul]
    rfl
  · norm_num [overallUtilizationJ, badBudget, JNum.div, JNum.mul]

/-- C3 (amended): a tick that updates a project sets
spent := min(budget, spent + extraSpend) with extraSpend nonnegative
(budget being nonnegative); when spent ≤ budget held before the tick,
spent does not decrease and does not exceed budget afterwards; but when
the initial spent exceeds budget (overspending seed or user data), the
update clamps spent down to exactly budget, a decrease — refuting the
unconditional never-decreases part of the claim. -/
theorem C3_spent_update : ∀ (d : ProjDraws) (p : Project), d.valid →
    d.update = true → p.progress < 100 → 0 ≤ p.budget → 0 ≤ p.spent →
    ((tickProject d p).spent = min p.budget (p.spent + extraSpend d p) ∧
     0 ≤ extraSpend d p ∧
     (p.spent ≤ p.budget →
       p.spent ≤ (tickProject d p).spent ∧ (tickProject d p).spent ≤ p.budget) ∧
     (p.budget ≤ p.spent → (tickProject d p).spent = p.budget)) := by
  intro d p hv hu hlt hb hs
  have he : 0 ≤ extraSpend d p := by
    unfold extraSpend
    exact jroundQ_nonneg
      (mul_nonneg (mul_nonneg hb (div_nonneg hv.1 (by norm_num)))
        (le_trans (by norm_num) hv.2.2.1))
  rw [tickProject, if_pos ⟨hu, hlt⟩]
  refine ⟨rfl, he, fun hsb => ⟨le_min hsb (le_add_of_nonneg_right he), min_le_left _ _⟩,
    fun hbs => min_eq_left (le_trans hbs (le_add_of_nonneg_right he))⟩

/-- C3 counterexample: the project with budget 100 and spent 150, updated
by a tick with increment 0, ends with spent 100 < 150: spent decreased
across the tick, refuting the claim that spent never decreases even when
the initial spent exceeds the budget. -/
theorem C3_counterexample : (tickProject dOver pOver).spent < pOver.spent := by
  norm_num [tickProject, pOver, dOver, extraSpend, jroundQ, jround, clamp, min_def]

/-- C3 witness: the amended update rule evaluated at a concrete valid draw
and a concrete in-budget project. -/
theorem C3_witness :
    ((tickProject dV pW3).spent = min pW3.budget (pW3.spent + extraSpend dV pW3) ∧
     0 ≤ extraSpend dV pW3 ∧
     (pW3.spent ≤ pW3.budget →
       pW3.spent ≤ (tickProject dV pW3).spent ∧ (tickProject dV pW3).spent ≤ pW3.budget) ∧
     (pW3.budget ≤ pW3.spent → (tickProject dV pW3).spent = pW3.budget)) :=
  C3_spent_update dV pW3 (by norm_num [dV, ProjDraws.valid]) rfl
    (by norm_num [pW3]) (by norm_num [pW3]) (by norm_num [pW3])

/-- C4: starting from the seed, after any number of ticks every budget
satisfies spent ≤ allocated × 1.15, and across any further tick with
in-range draws every budget position has a non-decreasing spent value. -/
theorem C4_budget_bounds : ∀ bs, ReachB bs →
    (∀ b ∈ bs, b.spent ≤ b.allocated * (115/100)) ∧
    (∀ ds : ℕ → BudgetDraws, (∀ i, (ds i).valid) →
      List.Forall₂ (fun b c => b.spent ≤ c.spent) bs (tickBudgets ds bs)) := by
  intro bs h
  exact ⟨fun b hb => (reachB_inv h b hb).2,
    fun ds hds => tickBudgetsFrom_spent_mono hds bs 0 (reachB_inv h)⟩

/-- C4 witness: the non-decrease of spent across one tick, evaluated at the
seed state with concrete in-range draws. -/
theorem C4_witness :
    List.Forall₂ (fun b c => b.spent ≤ c.spent) seedBudgets (tickBudgets dsBW seedBudgets) :=
  (C4_budget_bounds seedBudgets ReachB.seed).2 dsBW
    (fun _ => by norm_num [dsBW, BudgetDraws.valid])

/-- C5: in every state reachable from the seed, status Completed implies
progress ≥ 100, and an updating tick sets the status to Completed exactly
when the pre-clamp incremented progress reaches 100, otherwise leaving the
status unchanged. -/
theorem C5_completed_invariant :
    (∀ ps, ReachP ps → ∀ p ∈ ps, p.status = "Completed" → 100 ≤ p.progress) ∧
    (∀ (d : ProjDraws) (p : Project), d.update = true → p.progress < 100 →
      (tickProject d p).status =
        if 100 ≤ p.progress + d.inc then "Completed" else p.status) := by
  refine ⟨fun ps h => reachP_completed h, ?_⟩
  intro d p hu hlt
  rw [tickProject, if_pos ⟨hu, hlt⟩]

/-- C5 witness: the status equation at the specification scenario, a
project at progress 96 receiving a tick with drawn increment 5. -/
theorem C5_witness : (tickProject dC5 pC5).status =
    if 100 ≤ pC5.progress + dC5.inc then "Completed" else pC5.status :=
  C5_completed_invariant.2 dC5 pC5 rfl (by norm_num [pC5])

/-- C6 (amended): for every nonempty budgets list whose budgets all have
positive allocated amounts — which includes every state reachable from the
seed — and every reports list, the transparency index is a finite number
that is an integer between 0 and 100; the restriction is necessary because
the empty budgets list makes the index NaN (see the counterexample). -/
theorem C6_transparency_range : ∀ (bs : List Budget) (rs : List IrregularityReport),
    bs ≠ [] → (∀ b ∈ bs, 0 < b.allocated) →
    ∃ k : ℤ, transparencyIndexJ bs rs = JNum.fin (k : ℚ) ∧ 0 ≤ k ∧ k ≤ 100 := by
  intro bs rs hne hpos
  have hn0 : (bs.length : ℚ) ≠ 0 :=
    Nat.cast_ne_zero.mpr (fun h => hne (List.length_eq_zero.mp h))
  have havg : avgDeviationJ bs =
      JNum.fin ((List.foldl (fun s u => s + |u - 60|) 0 (bs.map utilQ)) / (bs.length : ℚ)) := by
    rw [avgDeviationJ, utilizationsJ_fin hpos, foldl_absdev_fin]
    simp [JNum.div, hn0]
  have hnorm : normJ bs =
      JNum.fin (max 0 (100 - (List.foldl (fun s u => s + |u - 60|) 0 (bs.map utilQ)) / (bs.length : ℚ)) / 100) := by
    rw [normJ, havg]
    norm_num [JNum.sub, JNum.maxJ, JNum.div]
  obtain ⟨hr0, hr1⟩ := resolutionRatioQ_bounds rs
  have hS0 : 0 ≤ List.foldl (fun s u => s + |u - 60|) 0 (bs.map utilQ) :=
    foldl_absdev_nonneg _ 0 le_rfl
  have havg0 : 0 ≤ (List.foldl (fun s u => s + |u - 60|) 0 (bs.map utilQ)) / (bs.length : ℚ) :=
    div_nonneg hS0 (Nat.cast_nonneg _)
  have hN0 : 0 ≤ max 0 (100 - (List.foldl (fun s u => s + |u - 60|) 0 (bs.map utilQ)) / (bs.length : ℚ)) / 100 :=
    div_nonneg (le_max_left _ _) (by norm_num)
  have hN1 : max 0 (100 - (List.foldl (fun s u => s + |u - 60|) 0 (bs.map utilQ)) / (bs.length : ℚ)) / 100 ≤ 1 := by
    rw [div_le_one (by norm_num)]
    exact max_le (by norm_num) (by linarith)
  refine ⟨⌊(6/10 * (max 0 (100 - (List.foldl (fun s u => s + |u - 60|) 0 (bs.map utilQ)) / (bs.length : ℚ)) / 100) + 4/10 * resolutionRatioQ rs) * 100 + 1/2⌋, ?_, ?_, ?_⟩
  · rw [transparencyIndexJ, hnorm]
    simp [JNum.mul, JNum.add, JNum.roundJ]
  · exact Int.floor_nonneg.mpr (by nlinarith)
  · have hlt : (6/10 * (max 0 (100 - (List.foldl (fun s u => s + |u - 60|) 0 (bs.map utilQ)) / (bs.length : ℚ)) / 100) + 4/10 * resolutionRatioQ rs) * 100 + 1/2 < ((101 : ℤ) : ℚ) := by
      push_cast
      nlinarith
    exact Int.lt_add_one_iff.mp (Int.floor_lt.mpr hlt)

/-- C6 counterexample: at the store state with no budgets and no reports
the computed transparency index is NaN — the division 0/0 inside
avgDeviation is unguarded — so it is not an integer in the range 0 to 100,
refuting the claim for every store state. -/
theorem C6_counterexample : transparencyIndexJ [] [] = JNum.nan := by
  norm_num [transparencyIndexJ, normJ, avgDeviationJ, utilizationsJ, resolutionRatioQ,
    JNum.div, JNum.mul, JNum.sub, JNum.add, JNum.maxJ, JNum.absJ, JNum.roundJ]

/-- C6 witness: the range theorem evaluated at the seeded budgets and the
empty reports list. -/
theorem C6_witness :
    ∃ k : ℤ, transparencyIndexJ seedBudgets [] = JNum.fin (k : ℚ) ∧ 0 ≤ k ∧ k ≤ 100 :=
  C6_transparency_range seedBudgets [] (by simp [seedBudgets])
    (by
      intro b hb
      simp [seedBudgets] at hb
      rcases hb with rfl | rfl | rfl | rfl | rfl | rfl | rfl | rfl <;> norm_num)

/-- C7 (amended): with a concrete (non-sentinel) region filter and the
other filters at their sentinels, the pipeline keeps an expenditure if and
only if it is in the input and its projectId is absent or is the empty
string (both falsy in the code's check) or some existing project with that
projectId has the selected region.  An expenditure with a nonempty
projectId matching no existing project is excluded; the empty-string
projectId is the one deviation from the claim as stated (see the
counterexample). -/
theorem C7_region_filter : ∀ (es : List Expenditure) (ps : List Project) (region : String),
    region ≠ "All" → ∀ e : Expenditure,
    (e ∈ filteredExpenditures es ps "" "All" region "All" ↔
      e ∈ es ∧ (e.projectId = none ∨ e.projectId = some "" ∨
        ∃ p ∈ ps, e.projectId = some p.id ∧ p.region = region)) := by
  intro es ps region hne e
  rw [filteredExpenditures]
  simp only [ne_eq, not_true_eq_false, if_false, ite_not]
  rw [if_neg (by simp [hne])]
  rw [mem_sortByDateDesc, List.mem_filter]
  rcases hpid : e.projectId with _ | pid
  · simp [hpid]
  · simp only [hpid]
    constructor
    · rintro ⟨hmem, hpred⟩
      refine ⟨hmem, ?_⟩
      simp only [Bool.or_eq_true, beq_iff_eq, List.contains, List.elem_iff,
        List.mem_map, List.mem_filter, decide_eq_true_eq] at hpred
      rcases hpred with h1 | ⟨p, ⟨hp, hreg⟩, hid⟩
      · exact Or.inr (Or.inl (by rw [h1]))
      · exact Or.inr (Or.inr ⟨p, hp, by rw [hid], hreg⟩)
    · rintro ⟨hmem, hnone | hempty | ⟨p, hp, hid, hreg⟩⟩
      · exact absurd hnone (by simp)
      · have hp0 : pid = "" := Option.some.inj hempty
        exact ⟨hmem, by simp [hp0]⟩
      · have hp1 : pid = p.id := Option.some.inj hid
        refine ⟨hmem, ?_⟩
        simp only [Bool.or_eq_true, beq_iff_eq, List.contains, List.elem_iff,
          List.mem_map, List.mem_filter, decide_eq_true_eq]
        exact Or.inr ⟨p, ⟨hp, hreg⟩, hp1.symm⟩

/-- C7 counterexample: an expenditure whose projectId is the empty string
is kept by a concrete region filter although its projectId is present and
matches no existing project (the projects list is empty), refuting the
claimed only-if direction. -/
theorem C7_counterexample :
    eEmpty ∈ filteredExpenditures [eEmpty] [] "" "All" "Rural" "All" ∧
    ¬(eEmpty.projectId = none ∨
      ∃ p ∈ ([] : List Project), eEmpty.projectId = some p.id ∧ p.region = "Rural") := by
  constructor
  · simp [filteredExpenditures, eEmpty, sortByDateDesc, insertByDateDesc]
  · simp [eEmpty]

/-- C7 witness: the region-filter characterization evaluated at a concrete
expenditure referencing a concrete Rural project. -/
theorem C7_witness :
    eRural ∈ filteredExpenditures [eRural] [prRural] "" "All" "Rural" "All" ↔
      eRural ∈ [eRural] ∧ (eRural.projectId = none ∨ eRural.projectId = some "" ∨
        ∃ p ∈ [prRural], eRural.projectId = some p.id ∧ p.region = "Rural") :=
  C7_region_filter [eRural] [prRural] "Rural" (by decide) eRural

/-- C8: confirm from the PendingConfirmation state prepends exactly one new
report — with status Submitted, createdAt now, the time-derived id, and the
draft fields copied — to the front of the reports list, leaving the prior
reports unchanged and in order, resets the draft to the defaults (severity
Medium, type Spending Concern) and leaves the confirmation state; the new
id differs from every prior id as long as no prior report carries the
current-time id. -/
theorem C8_confirm : ∀ (draft : ReportDraft) (rs : List IrregularityReport) (now : ℕ),
    (confirmSubmitReport ⟨draft, rs, true, true⟩ now).reports =
      mkReportFromDraft draft now :: rs ∧
    (mkReportFromDraft draft now).status = "Submitted" ∧
    (mkReportFromDraft draft now).createdAt = now ∧
    (mkReportFromDraft draft now).id = "r" ++ toString now ∧
    (mkReportFromDraft draft now).subject = draft.subject ∧
    (mkReportFromDraft draft now).description = draft.description ∧
    (mkReportFromDraft draft now).department = draft.department ∧
    (mkReportFromDraft draft now).projectId = draft.projectId ∧
    (mkReportFromDraft draft now).reference = draft.reference ∧
    (confirmSubmitReport ⟨draft, rs, true, true⟩ now).reportDraft = defaultReportDraft ∧
    (confirmSubmitReport ⟨draft, rs, true, true⟩ now).showReportConfirmation = false ∧
    ((∀ r ∈ rs, r.id ≠ "r" ++ toString now) →
      ∀ r ∈ rs, r.id ≠ (mkReportFromDraft draft now).id) := by
  intro draft rs now
  refine ⟨rfl, rfl, rfl, rfl, rfl, rfl, rfl, rfl, rfl, rfl, rfl, ?_⟩
  intro h r hr
  simpa [mkReportFromDraft] using h r hr

/-- C8 witness: the confirmation evaluated at the default draft, the empty
reports list and time 5: the draft resets to the defaults. -/
theorem C8_witness :
    (confirmSubmitReport ⟨defaultReportDraft, [], true, true⟩ 5).reportDraft =
      defaultReportDraft := by
  have h := C8_confirm defaultReportDraft [] 5
  exact h.2.2.2.2.2.2.2.2.2.1

/-- C9: a project whose progress has reached 100 is never modified by any
further tick — the per-project update is guarded by progress < 100 — so a
single tick leaves it exactly unchanged and so does any sequence of
ticks. -/
theorem C9_frozen : ∀ p : Project, 100 ≤ p.progress →
    (∀ d, tickProject d p = p) ∧
    (∀ l : List ProjDraws, l.foldl (fun q d => tickProject d q) p = p) := by
  intro p h
  have h1 : ∀ d, tickProject d p = p := by
    intro d
    rw [tickProject, if_neg]
    rintro ⟨-, hlt⟩
    exact absurd h (not_le.mpr hlt)
  refine ⟨h1, ?_⟩
  intro l
  induction l with
  | nil => rfl
  | cons d l ih => rw [List.foldl_cons, h1 d]; exact ih

/-- C9 witness: the frozen-project equation evaluated at a concrete
completed project and a concrete draw. -/
theorem C9_witness : tickProject dV pDone = pDone :=
  (C9_frozen pDone (by norm_num [pDone])).1 dV

/-- C10: every tick preserves the length and the positional identity of
both collections — position by position the id (and every field outside
the update set) of each record is unchanged: for projects the fields id,
name, department, budget, startDate, endDate, region and description, and
for budgets the fields id, department, category, allocated and region. -/
theorem C10_frame : ∀ (dsP : ℕ → ProjDraws) (ps : List Project)
    (dsB : ℕ → BudgetDraws) (bs : List Budget),
    (tickProjects dsP ps).length = ps.length ∧
    List.Forall₂ (fun p q : Project =>
      q.id = p.id ∧ q.name = p.name ∧ q.department = p.department ∧
      q.budget = p.budget ∧ q.startDate = p.startDate ∧ q.endDate = p.endDate ∧
      q.region = p.region ∧ q.description = p.description) ps (tickProjects dsP ps) ∧
    (tickBudgets dsB bs).length = bs.length ∧
    List.Forall₂ (fun b c : Budget =>
      c.id = b.id ∧ c.department = b.department ∧ c.category = b.category ∧
      c.allocated = b.allocated ∧ c.region = b.region) bs (tickBudgets dsB bs) := by
  intro dsP ps dsB bs
  exact ⟨tickProjectsFrom_length dsP ps 0, tickProjectsFrom_frame dsP ps 0,
    tickBudgetsFrom_length dsB bs 0, tickBudgetsFrom_frame dsB bs 0⟩

end GovTrack
